import Mathlib

/-!
Verification of the `DexWebSocketClient` connection supervisor
(`src/wsClient.ts`): shallow embedding of its configuration validation,
lifecycle event handlers, heartbeat/health evaluation, reconnect
scheduling, send, and message decoding, together with proofs of the
spec-level properties.

Conventions of the embedding:
* Milliseconds and timestamps are `Nat` (JS `Date.now()` values);
  the environment's monotone clock is carried in the state (`clock`)
  and every timed event is required to be at or after it.
* The mutable fields of the class become an explicit `ClientState`;
  the `readonly` fields become a `Config` produced by the constructor.
* Each `ws` event handler and each timer callback is a pure function
  `ClientState → ClientState × List Output`, where `Output` records the
  externally observable effects (pings, outbound frames, terminate,
  connect invocations, callback invocations).
* `setTimeout` in `scheduleReconnect` becomes a list of pending due
  times; the timeout firing is the `reconnectFire` event, valid exactly
  at a pending due time.
-/

namespace DexWs

/-- JSON values, the structured data decoded from inbound payloads, on
the fragment this development needs: literals and the empty object
`\x7b\x7d` (the only object the supervisor itself constructs). `jnull`
doubles as the JS `null` value, which `tryParseJson` also uses as its
failure sentinel. -/
inductive Json where
  | jnull
  | jbool (b : Bool)
  | jnum (n : Int)
  | jstr (s : String)
  | jobjEmpty
  deriving DecidableEq, Repr

/-- Model of the platform `JSON.parse` (an external collaborator: the
spec excludes JSON decoding from the core). It is exact on the JSON
literal fragment — `null`, `true`, `false`, integer numerals, and
quoted strings without escapes — and conservatively fails elsewhere;
`none` is a parse error (JS: a thrown `SyntaxError`). Any conforming
JSON parser agrees with it on this fragment, in particular
`JSON.parse("null")` succeeds and returns `null`. -/
def digitsVal (cs : List Char) : Nat :=
  cs.foldl (fun n c => n * 10 + (c.toNat - 48)) 0

def jsonParseModel (s : String) : Option Json :=
  if s = "null" then some .jnull
  else if s = "true" then some (.jbool true)
  else if s = "false" then some (.jbool false)
  else if s = "\x7b\x7d" then some .jobjEmpty
  else
    match s.data with
    | [] => none
    | '"' :: rest =>
      if rest.getLast? = some '"' ∧
          rest.dropLast.all (fun c => c ≠ '"' ∧ c ≠ '\\') then
        some (.jstr (String.mk rest.dropLast))
      else none
    | '-' :: rest =>
      if rest ≠ [] ∧ rest.all Char.isDigit then
        some (.jnum (-(digitsVal rest : Int)))
      else none
    | cs =>
      if cs.all Char.isDigit then some (.jnum (digitsVal cs)) else none

/-- Model of the platform `JSON.stringify` on the same fragment
(external collaborator; used by `send` for structured payloads). -/
def jsonStringify : Json → String
  | .jnull => "null"
  | .jbool true => "true"
  | .jbool false => "false"
  | .jnum n => toString n
  | .jstr s => "\"" ++ s ++ "\""
  | .jobjEmpty => "\x7b\x7d"

/-- `WebSocket.RawData` of the `ws` library: `Buffer | ArrayBuffer |
Buffer[]`, with `string` also possible for other event payloads. A
`Buffer`'s content is represented by the string `toString('utf8')`
yields. -/
inductive RawData where
  | str (s : String)
  | buf (utf8 : String)
  | arrayBuf
  | bufArray
  deriving DecidableEq, Repr

/-- `tryParseJson` (src/wsClient.ts lines 310–318), parametric in the
platform JSON parser. Returns a JS value: `Json.jnull` stands for the
JS `null` returned on a non-string/non-Buffer input or a parse error —
and is also what a successful parse of the text `null` returns. -/
def tryParseJsonWith (parse : String → Option Json) (data : RawData) : Json :=
  match data with
  | .arrayBuf => .jnull
  | .bufArray => .jnull
  | .str text =>
    match parse text with
    | some j => j
    | none => .jnull
  | .buf text =>
    match parse text with
    | some j => j
    | none => .jnull

/-- `tryParseJson` with the concrete parser model. -/
def tryParseJson (data : RawData) : Json :=
  tryParseJsonWith jsonParseModel data

/-- The first argument of the `onMessage` callback: either the decoded
structured value or the raw payload (the JS expression `parsed ?? data`
has this union type). -/
inductive Forwarded where
  | parsed (j : Json)
  | raw (d : RawData)
  deriving DecidableEq, Repr

/-- The message handler's argument computation (src/wsClient.ts lines
203–206): `parsed ?? data` — the nullish-coalescing operator falls back
to the raw payload exactly when `tryParseJson` returned the JS `null`. -/
def onMessageArgWith (parse : String → Option Json) (data : RawData) : Forwarded :=
  match tryParseJsonWith parse data with
  | .jnull => .raw data
  | j => .parsed j

/-- `onMessageArg` with the concrete parser model. -/
def onMessageArg (data : RawData) : Forwarded :=
  onMessageArgWith jsonParseModel data

/-- The constructor options record (`DexWebSocketClientOptions`),
optional fields as `Option`. -/
structure Options where
  token : String
  baseUrl : String
  isStream : Option Bool := none
  heartbeatIntervalMs : Option Nat := none
  messagePollingIntervalMs : Option Nat := none
  pongTimeoutMs : Option Nat := none
  maxMissedPongs : Option Nat := none
  reconnectDelayMs : Option Nat := none
  autoReconnect : Option Bool := none
  reconnectAttempts : Option Int := none
  deriving Repr

/-- The `readonly` configuration fields of `DexWebSocketClient`, fixed
by the constructor. -/
structure Config where
  token : String
  baseUrl : String
  isStream : Bool
  heartbeatIntervalMs : Nat
  messagePollingIntervalMs : Nat
  pongTimeoutMs : Nat
  maxMissedPongs : Nat
  reconnectDelayMs : Nat
  autoReconnect : Bool
  deriving Repr

/-- `readyState` of the underlying `ws` socket. -/
inductive ReadyState where
  | connecting
  | open
  | closing
  | closed
  deriving DecidableEq, Repr

/-- The mutable fields of `DexWebSocketClient`.  `heartbeatTimer` and
`pollingTimer` record whether the corresponding interval timer is set;
`pendingReconnects` holds the due times of outstanding
`scheduleReconnect` timeouts; `clock` is the last observed value of the
environment's monotone `Date.now()`. -/
structure ClientState where
  socket : Option ReadyState
  heartbeatTimer : Bool
  pollingTimer : Bool
  lastPongAt : Option Nat
  missedPongs : Nat
  reconnectAttempts : Int
  systemClose : Bool
  pendingReconnects : List Nat
  clock : Nat
  deriving DecidableEq, Repr

/-- The constructor (src/wsClient.ts lines 159–187): applies the
documented defaults, then validates the timing invariant — it throws
(here: `Except.error`) when `heartbeatIntervalMs + pongTimeoutMs +
reconnectDelayMs > messagePollingIntervalMs`, before any connection
attempt. On success it returns the frozen config and the initial
mutable state. -/
def mkClient (o : Options) : Except String (Config × ClientState) :=
  let cfg : Config :=
    { token := o.token
      baseUrl := o.baseUrl
      isStream := o.isStream.getD false
      heartbeatIntervalMs := o.heartbeatIntervalMs.getD 1000
      messagePollingIntervalMs := o.messagePollingIntervalMs.getD 5000
      pongTimeoutMs := o.pongTimeoutMs.getD 3000
      maxMissedPongs := o.maxMissedPongs.getD 2
      reconnectDelayMs := o.reconnectDelayMs.getD 1000
      autoReconnect := o.autoReconnect.getD true }
  let combinedRecoveryBudget :=
    cfg.heartbeatIntervalMs + cfg.pongTimeoutMs + cfg.reconnectDelayMs
  if combinedRecoveryBudget > cfg.messagePollingIntervalMs then
    .error "messagePollingIntervalMs must be greater than heartbeatIntervalMs + pongTimeoutMs + reconnectDelayMs"
  else
    .ok (cfg,
      { socket := none
        heartbeatTimer := false
        pollingTimer := false
        lastPongAt := none
        missedPongs := 0
        reconnectAttempts := o.reconnectAttempts.getD 3
        systemClose := false
        pendingReconnects := []
        clock := 0 })

/-- Externally observable effects of a handler run. -/
inductive Output where
  | ping
  | frame (data : String)
  | terminate
  | connectInvoked
  | openObs
  | msgObs (message : Forwarded) (raw : RawData)
  | pongObs
  | closeObs (callerInitiated : Bool) (code : Nat)
  deriving DecidableEq, Repr

/-- `this.socket?.terminate()`: abrupt termination moves an existing
socket out of the OPEN state (no graceful close handshake); the close
event is delivered by the environment afterwards. -/
def terminateSocket : Option ReadyState → Option ReadyState
  | none => none
  | some _ => some .closing

/-- `evaluateConnectionHealth` (src/wsClient.ts lines 277–291) followed
by `handleUnresponsiveConnection` (lines 293–296), at current time `t`.
The guard `if (!this.lastPongAt)` is JS truthiness: it returns both
when no pong timestamp was ever recorded and when the recorded
timestamp is the number 0. -/
def evaluateConnectionHealth (cfg : Config) (s : ClientState) (t : Nat) :
    ClientState × List Output :=
  match s.lastPongAt with
  | none => (s, [])
  | some lastPongAt =>
    if lastPongAt = 0 then (s, [])
    else
      let elapsed := t - lastPongAt
      if elapsed ≤ cfg.pongTimeoutMs then (s, [])
      else
        let s := { s with missedPongs := s.missedPongs + 1 }
        if s.missedPongs ≥ cfg.maxMissedPongs then
          ({ s with socket := terminateSocket s.socket }, [.terminate])
        else (s, [])

/-- `connect()` (src/wsClient.ts lines 189–224): resets the
caller-initiated flag and installs a fresh socket in the CONNECTING
state (handler registration is implicit in the step semantics). -/
def connectFn (s : ClientState) : ClientState × List Output :=
  ({ s with systemClose := false, socket := some .connecting }, [.connectInvoked])

/-- `send(payload)` (src/wsClient.ts lines 226–232): precondition error
unless a socket exists and is OPEN; a string payload is sent verbatim,
a structured payload is JSON-serialized; on success exactly the one
returned frame goes out. -/
def send (s : ClientState) (payload : Sum String Json) : Except String String :=
  if s.socket ≠ some .open then
    .error "WebSocket is not open; call connect() and wait for onOpen."
  else
    match payload with
    | .inl str => .ok str
    | .inr obj => .ok (jsonStringify obj)

/-- The events the environment (socket, timers, caller) can deliver to
the supervisor. Timed events carry the `Date.now()` at delivery. -/
inductive Event where
  | callConnect
  | sockOpen (t : Nat)
  | sockMessage (data : RawData)
  | sockPong (t : Nat)
  | sockClose (t : Nat) (code : Nat)
  | heartbeatTick (t : Nat)
  | pollTick
  | reconnectFire (t : Nat)
  | callClose
  deriving DecidableEq, Repr

/-- One atomic handler execution (the runtime is single-threaded:
handlers never interleave). Each branch is the corresponding handler in
src/wsClient.ts. -/
def step (cfg : Config) (s : ClientState) : Event → ClientState × List Output
  | .callConnect => connectFn s
  | .sockOpen t =>
    -- open handler, lines 196–202: reset missedPongs, record the pong
    -- timestamp, start the heartbeat, start polling unless streaming.
    let s := { s with socket := some .open, clock := t,
                      missedPongs := 0, lastPongAt := some t,
                      heartbeatTimer := true }
    let s := if cfg.isStream then s else { s with pollingTimer := true }
    (s, [.openObs])
  | .sockMessage data =>
    (s, [.msgObs (onMessageArg data) data])
  | .sockPong t =>
    -- pong handler, lines 219–223.
    ({ s with clock := t, lastPongAt := some t, missedPongs := 0 }, [.pongObs])
  | .sockClose t code =>
    -- close handler, lines 210–218: stop both timers, invoke onClose,
    -- then schedule a reconnect iff the close was not caller-initiated
    -- and auto-reconnect is on.
    let s := { s with socket := some .closed, clock := t,
                      heartbeatTimer := false, pollingTimer := false }
    let out := [Output.closeObs s.systemClose code]
    if ¬s.systemClose ∧ cfg.autoReconnect then
      ({ s with pendingReconnects :=
          s.pendingReconnects ++ [t + cfg.reconnectDelayMs] }, out)
    else (s, out)
  | .heartbeatTick t =>
    -- heartbeat interval callback, lines 243–248: evaluate health
    -- first, then ping only if the socket is still OPEN.
    let s := { s with clock := t }
    let (s, out) := evaluateConnectionHealth cfg s t
    if s.socket = some .open then (s, out ++ [.ping]) else (s, out)
  | .pollTick =>
    -- polling interval callback, lines 263–267: `send({})` when OPEN.
    if s.socket = some .open then (s, [.frame (jsonStringify .jobjEmpty)]) else (s, [])
  | .reconnectFire t =>
    -- the `setTimeout` body of scheduleReconnect, lines 299–306.
    let s := { s with clock := t,
                      pendingReconnects := s.pendingReconnects.erase t,
                      reconnectAttempts := s.reconnectAttempts - 1 }
    if s.reconnectAttempts ≤ 0 then (s, []) else connectFn s
  | .callClose =>
    -- close(), lines 234–239: set the caller-initiated flag first,
    -- synchronously, then tear down timers and request graceful close.
    ({ s with systemClose := true, heartbeatTimer := false,
              pollingTimer := false,
              socket := s.socket.map (fun rs =>
                if rs = .closed then rs else .closing) }, [])

/-- Whether the environment can deliver an event in a state: socket
events need a socket in the right phase, timer ticks need their timer
set, a reconnect timeout fires only at a pending due time, and time
never goes backwards. -/
def eventOK (s : ClientState) : Event → Bool
  | .callConnect => true
  | .sockOpen t => s.socket = some .connecting && s.clock ≤ t
  | .sockMessage _ => s.socket = some .open
  | .sockPong t => s.socket = some .open && s.clock ≤ t
  | .sockClose t _ => s.socket.isSome && s.socket ≠ some .closed && s.clock ≤ t
  | .heartbeatTick t => s.heartbeatTimer && s.clock ≤ t
  | .pollTick => s.pollingTimer
  | .reconnectFire t => s.pendingReconnects.contains t && s.clock ≤ t
  | .callClose => true

/-- Run a list of events, accumulating the outputs. -/
def run (cfg : Config) (s : ClientState) : List Event → ClientState × List Output
  | [] => (s, [])
  | e :: es =>
    ((run cfg (step cfg s e).1 es).1,
      (step cfg s e).2 ++ (run cfg (step cfg s e).1 es).2)

/-- Validity of a whole event list from a starting state. -/
def traceOK (cfg : Config) (s : ClientState) : List Event → Bool
  | [] => true
  | e :: es => eventOK s e && traceOK cfg (step cfg s e).1 es

/-- The result of best-effort decoding an inbound payload: the platform
parse of the payload text, failing outright on payloads that are
neither a string nor a Buffer (mirroring the type guard of
`tryParseJson`). -/
def decodedValue (parse : String → Option Json) : RawData → Option Json
  | .str text => parse text
  | .buf text => parse text
  | .arrayBuf => none
  | .bufArray => none

/-- The heartbeat ticks of one silent stretch: `n` consecutive ticks at
interval `h`, the `k`-th at time `t0 + k * h`, with no pong in
between. -/
def silentTicks (t0 h n : Nat) : List Event :=
  (List.range n).map (fun k => .heartbeatTick (t0 + (k + 1) * h))

/-- The canonical unresponsive-connection scenario: connect, open at
`t0`, then `n` silent heartbeat ticks, then the close event the
terminated socket delivers (at the time of the last tick). -/
def silentTrace (t0 h n code : Nat) : List Event :=
  [.callConnect, .sockOpen t0] ++ silentTicks t0 h n ++
    [.sockClose (t0 + n * h) code]

/-- Healthy-trace hypothesis: every heartbeat tick in the event list
runs with elapsed time since the last recorded acknowledgment at most
`pongTimeoutMs`. The tracked timestamp is updated exactly where the
handlers set `lastPongAt` (the pong handler and the open handler). -/
def ticksWithinTimeout (cfg : Config) (lastPong : Nat) : List Event → Bool
  | [] => true
  | .heartbeatTick t :: es =>
    (t - lastPong ≤ cfg.pongTimeoutMs) && ticksWithinTimeout cfg lastPong es
  | .sockPong t :: es => ticksWithinTimeout cfg t es
  | .sockOpen t :: es => ticksWithinTimeout cfg t es
  | _ :: es => ticksWithinTimeout cfg lastPong es

/-- Reachable-state invariant tying a positive missed-pong counter to a
stale acknowledgment: the counter is only ever positive when the
elapsed time since the last recorded acknowledgment (measured at the
last observed clock value) already exceeds the liveness timeout. -/
def missedImpliesStale (cfg : Config) (s : ClientState) : Prop :=
  s.missedPongs = 0 ∨
    ∃ lp, s.lastPongAt = some lp ∧ cfg.pongTimeoutMs < s.clock - lp

/-! ### Concrete instances for witnesses and counterexamples -/

/-- All-defaults options (the boundary configuration: 1000 + 3000 +
1000 = 5000). -/
def optsDefault : Options := { token := "t", baseUrl := "wss://example" }

/-- A streaming configuration whose timing budget exceeds its polling
interval. -/
def optsStreamBad : Options :=
  { token := "t", baseUrl := "wss://example", isStream := some true,
    messagePollingIntervalMs := some 100 }

/-- The all-defaults non-streaming configuration record. -/
def cfgA : Config :=
  { token := "t", baseUrl := "wss://example", isStream := false,
    heartbeatIntervalMs := 1000, messagePollingIntervalMs := 5000,
    pongTimeoutMs := 3000, maxMissedPongs := 2, reconnectDelayMs := 1000,
    autoReconnect := true }

/-- `cfgA` with streaming enabled. -/
def cfgStream : Config := { cfgA with isStream := true }

/-- The initial mutable state the constructor produces, with a given
reconnect-attempts budget. -/
def stInit (attempts : Int) : ClientState :=
  { socket := none, heartbeatTimer := false, pollingTimer := false,
    lastPongAt := none, missedPongs := 0, reconnectAttempts := attempts,
    systemClose := false, pendingReconnects := [], clock := 0 }

/-- A state mid-attempt with an open socket, both timers running, and a
pong recorded at time `t`. -/
def stOpenAt (t : Nat) (attempts : Int) : ClientState :=
  { socket := some .open, heartbeatTimer := true, pollingTimer := true,
    lastPongAt := some t, missedPongs := 0, reconnectAttempts := attempts,
    systemClose := false, pendingReconnects := [], clock := t }

/-! ### Theorems -/

/-- C6: construction fails (synchronously, before any connection
attempt — no state is produced) exactly when `heartbeatIntervalMs +
pongTimeoutMs + reconnectDelayMs > messagePollingIntervalMs` (after
defaults), and succeeds when the sum equals `messagePollingIntervalMs`
(the boundary case). -/
theorem mkClient_fails_iff_budget_exceeds_polling (o : Options) :
    ((∃ msg, mkClient o = .error msg) ↔
      o.messagePollingIntervalMs.getD 5000 <
        o.heartbeatIntervalMs.getD 1000 + o.pongTimeoutMs.getD 3000 +
          o.reconnectDelayMs.getD 1000) ∧
    (o.heartbeatIntervalMs.getD 1000 + o.pongTimeoutMs.getD 3000 +
        o.reconnectDelayMs.getD 1000 = o.messagePollingIntervalMs.getD 5000 →
      ∃ cs, mkClient o = .ok cs) := by
  by_cases hc : o.messagePollingIntervalMs.getD 5000 <
      o.heartbeatIntervalMs.getD 1000 + o.pongTimeoutMs.getD 3000 +
        o.reconnectDelayMs.getD 1000
  · refine ⟨by simp [mkClient, hc], fun heq => absurd hc (by omega)⟩
  · refine ⟨by simp [mkClient, hc], fun _ => ?_⟩
    have herr : ¬ ∃ msg, mkClient o = .error msg := by simp [mkClient, hc]
    cases hmk : mkClient o with
    | ok cs => exact ⟨cs, rfl⟩
    | error m => exact absurd ⟨m, hmk⟩ herr

/-- C6 witness: at the all-defaults boundary configuration
(1000 + 3000 + 1000 = 5000) construction succeeds. -/
theorem mkClient_fails_iff_budget_exceeds_polling_witness :
    ∃ cs, mkClient optsDefault = .ok cs :=
  (mkClient_fails_iff_budget_exceeds_polling optsDefault).2 rfl

/-- C10: the timing-budget check is unconditional on the streaming
flag: a configuration with `isStream = true` whose budget exceeds the
polling interval is still rejected at construction, even though in
streaming mode the open handler never starts the polling timer. -/
theorem budget_check_unconditional_in_stream_mode :
    (∀ o : Options, o.isStream = some true →
      o.messagePollingIntervalMs.getD 5000 <
        o.heartbeatIntervalMs.getD 1000 + o.pongTimeoutMs.getD 3000 +
          o.reconnectDelayMs.getD 1000 →
      ∃ msg, mkClient o = .error msg) ∧
    (∀ (cfg : Config) (s : ClientState) (t : Nat), cfg.isStream = true →
      (step cfg s (.sockOpen t)).1.pollingTimer = s.pollingTimer) := by
  constructor
  · intro o _ hlt
    cases hmk : mkClient o with
    | error m => exact ⟨m, rfl⟩
    | ok cs => exact absurd hmk (by simp [mkClient, hlt])
  · intro cfg s t hstream
    simp [step, hstream]

/-- C10 witness: a streaming configuration violating the budget is
rejected, and in streaming mode the open handler leaves the polling
timer off. -/
theorem budget_check_unconditional_in_stream_mode_witness :
    (∃ msg, mkClient optsStreamBad = .error msg) ∧
    (step cfgStream { stInit 3 with socket := some .connecting }
        (.sockOpen 5)).1.pollingTimer = false := by
  have h2 := budget_check_unconditional_in_stream_mode.2 cfgStream
      { stInit 3 with socket := some .connecting } 5 rfl
  have h1 := budget_check_unconditional_in_stream_mode.1 optsStreamBad rfl
      (by decide)
  exact ⟨h1, by rw [h2]; rfl⟩

/-- C7: with no liveness acknowledgment ever recorded for the current
attempt (`lastPongAt` unset), the health evaluator is a no-op — the
state (in particular the missed-acknowledgment counter and the socket)
is unchanged and nothing is terminated; consequently a heartbeat tick
in that situation leaves the counter alone and never terminates. -/
theorem health_eval_noop_without_pong (cfg : Config) (s : ClientState) (t : Nat)
    (h : s.lastPongAt = none) :
    evaluateConnectionHealth cfg s t = (s, []) ∧
    (step cfg s (.heartbeatTick t)).1.missedPongs = s.missedPongs ∧
    Output.terminate ∉ (step cfg s (.heartbeatTick t)).2 := by
  have heval : evaluateConnectionHealth cfg { s with clock := t } t =
      ({ s with clock := t }, []) := by
    simp [evaluateConnectionHealth, h]
  refine ⟨by simp [evaluateConnectionHealth, h], ?_, ?_⟩ <;>
    · simp only [step, heval]
      split <;> simp

/-- C7 witness: concrete freshly-connected state. -/
theorem health_eval_noop_without_pong_witness :
    evaluateConnectionHealth cfgA { stOpenAt 0 3 with lastPongAt := none } 9999 =
      ({ stOpenAt 0 3 with lastPongAt := none }, []) :=
  (health_eval_noop_without_pong cfgA { stOpenAt 0 3 with lastPongAt := none }
    9999 rfl).1

/-- C8: `send` fails with a precondition error (and sends nothing)
whenever the socket is absent or not OPEN — in particular before the
open event — and once OPEN it accepts a pre-serialized string (sent
verbatim) or a structured value (JSON-serialized), each call producing
exactly the one returned outbound frame. -/
theorem send_precondition_and_serialization (s : ClientState) :
    (s.socket ≠ some .open → ∀ p, ∃ msg, send s p = .error msg) ∧
    (s.socket = some .open →
      (∀ str, send s (.inl str) = .ok str) ∧
      (∀ obj, send s (.inr obj) = .ok (jsonStringify obj))) := by
  constructor
  · intro hne p
    simp [send, hne]
  · intro hopen
    constructor <;> intro x <;> simp [send, hopen]

/-- C8 witness: before open `send` errors; after open, `send ""` is not
an error and the empty object serializes to one frame. -/
theorem send_precondition_and_serialization_witness :
    (∃ msg, send (stInit 3) (.inl "x") = .error msg) ∧
    send (stOpenAt 1 3) (.inr .jobjEmpty) = .ok (jsonStringify .jobjEmpty) :=
  ⟨(send_precondition_and_serialization (stInit 3)).1 (by decide) (.inl "x"),
   ((send_precondition_and_serialization (stOpenAt 1 3)).2 rfl).2 .jobjEmpty⟩

/-- C9 counterexample: the payload whose text is exactly `null` decodes
successfully (to the JSON null value), yet the on-message callback
receives the raw payload, not the decoded value — `tryParseJson` uses
the JS `null` both as its failure sentinel and as the honest result of
parsing `null`, and `parsed ?? data` cannot tell the two apart. -/
theorem message_decoding_null_counterexample :
    decodedValue jsonParseModel (.str "null") = some Json.jnull ∧
    onMessageArg (.str "null") = .raw (.str "null") ∧
    Forwarded.raw (.str "null") ≠ .parsed Json.jnull := by
  refine ⟨by decide, by decide, by decide⟩

/-- C9 (amended): the on-message callback receives the decoded value
whenever decoding succeeds with a non-null value, and receives the raw
payload unchanged whenever decoding fails **or decodes to JSON null**;
decoding failure never produces an error (the handler always forwards
something). -/
theorem message_decoding_fallback (parse : String → Option Json) (d : RawData) :
    (∀ j, decodedValue parse d = some j → j ≠ .jnull →
      onMessageArgWith parse d = .parsed j) ∧
    (decodedValue parse d = none ∨ decodedValue parse d = some .jnull →
      onMessageArgWith parse d = .raw d) := by
  constructor
  · intro j hj hne
    have harg : tryParseJsonWith parse d = j := by
      cases d <;> simp_all [decodedValue, tryParseJsonWith]
    simp only [onMessageArgWith, harg]
  · intro hfail
    rcases hfail with hfail | hfail <;>
      cases d <;> simp_all [decodedValue, onMessageArgWith, tryParseJsonWith]

/-- C9 amended witness: a numeric payload is forwarded decoded; an
unparseable payload is forwarded raw. -/
theorem message_decoding_fallback_witness :
    onMessageArgWith jsonParseModel (.str "42") = .parsed (.jnum 42) ∧
    onMessageArgWith jsonParseModel (.str "nope") = .raw (.str "nope") :=
  ⟨(message_decoding_fallback jsonParseModel (.str "42")).1 (.jnum 42)
      (by decide) (by decide),
   (message_decoding_fallback jsonParseModel (.str "nope")).2
      (Or.inl (by decide))⟩

/-! ### Helper lemmas about runs and the health evaluator -/

theorem run_append (cfg : Config) (es1 es2 : List Event) :
    ∀ s : ClientState,
      run cfg s (es1 ++ es2) =
        ((run cfg (run cfg s es1).1 es2).1,
          (run cfg s es1).2 ++ (run cfg (run cfg s es1).1 es2).2) := by
  induction es1 with
  | nil => intro s; simp [run]
  | cons e es ih => intro s; simp [run, ih]

theorem traceOK_append (cfg : Config) (es1 es2 : List Event) :
    ∀ s : ClientState,
      traceOK cfg s (es1 ++ es2) =
        (traceOK cfg s es1 && traceOK cfg (run cfg s es1).1 es2) := by
  induction es1 with
  | nil => intro s; simp [run, traceOK]
  | cons e es ih =>
    intro s
    simp [run, traceOK, ih, Bool.and_assoc]

/-- The health evaluator leaves the state untouched when the elapsed
time since the last acknowledgment is within the timeout (this also
covers the JS-falsy timestamp 0). -/
theorem evaluate_recent (cfg : Config) (s : ClientState) (t lp : Nat)
    (hlp : s.lastPongAt = some lp) (ht : t - lp ≤ cfg.pongTimeoutMs) :
    evaluateConnectionHealth cfg s t = (s, []) := by
  by_cases h0 : lp = 0 <;> simp [evaluateConnectionHealth, hlp, h0, ht]

/-- The health evaluator past the timeout: increments the counter, and
terminates exactly when the counter reaches the maximum. -/
theorem evaluate_missed (cfg : Config) (s : ClientState) (t lp : Nat)
    (hlp : s.lastPongAt = some lp) (h0 : lp ≠ 0)
    (ht : cfg.pongTimeoutMs < t - lp) :
    evaluateConnectionHealth cfg s t =
      if s.missedPongs + 1 ≥ cfg.maxMissedPongs then
        ({ s with missedPongs := s.missedPongs + 1,
                  socket := terminateSocket s.socket }, [.terminate])
      else ({ s with missedPongs := s.missedPongs + 1 }, []) := by
  simp [evaluateConnectionHealth, hlp, h0, Nat.not_le.mpr ht]

/-- The health evaluator never touches the reconnect budget, the
caller-initiated flag, the pending reconnect timeouts, the timers, the
pong timestamp, or the clock; its only possible output is the
termination. -/
theorem evaluate_frame (cfg : Config) (s : ClientState) (t : Nat) :
    (evaluateConnectionHealth cfg s t).1.reconnectAttempts = s.reconnectAttempts ∧
    (evaluateConnectionHealth cfg s t).1.systemClose = s.systemClose ∧
    (evaluateConnectionHealth cfg s t).1.pendingReconnects = s.pendingReconnects ∧
    (evaluateConnectionHealth cfg s t).1.heartbeatTimer = s.heartbeatTimer ∧
    (evaluateConnectionHealth cfg s t).1.pollingTimer = s.pollingTimer ∧
    (evaluateConnectionHealth cfg s t).1.lastPongAt = s.lastPongAt ∧
    (evaluateConnectionHealth cfg s t).1.clock = s.clock ∧
    (∀ o ∈ (evaluateConnectionHealth cfg s t).2, o = Output.terminate) := by
  cases hlp : s.lastPongAt with
  | none => simp [evaluateConnectionHealth, hlp]
  | some lp =>
    by_cases h0 : lp = 0
    · simp [evaluateConnectionHealth, hlp, h0]
    · by_cases ht : t - lp ≤ cfg.pongTimeoutMs
      · simp [evaluateConnectionHealth, hlp, h0, ht]
      · by_cases hm : s.missedPongs + 1 ≥ cfg.maxMissedPongs <;>
          simp [evaluateConnectionHealth, hlp, h0, ht, hm]

/-- The health evaluator either leaves the counter unchanged or
increments it by one, the latter only when the elapsed time since a
recorded acknowledgment exceeds the timeout. -/
theorem evaluate_missedPongs (cfg : Config) (s : ClientState) (t : Nat) :
    (evaluateConnectionHealth cfg s t).1.missedPongs = s.missedPongs ∨
    ((evaluateConnectionHealth cfg s t).1.missedPongs = s.missedPongs + 1 ∧
      ∃ lp, s.lastPongAt = some lp ∧ cfg.pongTimeoutMs < t - lp) := by
  cases hlp : s.lastPongAt with
  | none => left; simp [evaluateConnectionHealth, hlp]
  | some lp =>
    by_cases hz : lp = 0
    · left; simp [evaluateConnectionHealth, hlp, hz]
    · by_cases hel : t - lp ≤ cfg.pongTimeoutMs
      · left; rw [evaluate_recent cfg s t lp hlp hel]
      · right
        refine ⟨?_, lp, rfl, by omega⟩
        rw [evaluate_missed cfg s t lp hlp hz (by omega)]
        split <;> rfl

/-- No event ever increases the reconnect budget. -/
theorem step_attempts_le (cfg : Config) (s : ClientState) (e : Event) :
    (step cfg s e).1.reconnectAttempts ≤ s.reconnectAttempts := by
  cases e with
  | heartbeatTick t =>
    have h := (evaluate_frame cfg { s with clock := t } t).1
    simp only [step]
    split <;> simp [h]
  | sockClose t code => simp only [step]; split <;> simp
  | reconnectFire t =>
    simp only [step]
    split <;> simp [connectFn]
  | sockOpen t => simp only [step]; split <;> simp
  | pollTick => simp only [step]; split <;> simp
  | _ => simp [step, connectFn]

/-- With the budget exhausted, no event other than a caller `connect()`
can emit a connect invocation. -/
theorem step_no_connect_of_exhausted (cfg : Config) (s : ClientState) (e : Event)
    (h0 : s.reconnectAttempts ≤ 0) (hne : e ≠ .callConnect) :
    Output.connectInvoked ∉ (step cfg s e).2 := by
  cases e with
  | callConnect => exact absurd rfl hne
  | heartbeatTick t =>
    have h := (evaluate_frame cfg { s with clock := t } t).2.2.2.2.2.2.2
    simp only [step]
    split <;> intro hmem <;> simp only [List.mem_append, List.mem_singleton] at hmem
    · rcases hmem with hmem | hmem
      · exact absurd (h _ hmem) (by simp)
      · exact absurd hmem (by simp)
    · exact absurd (h _ hmem) (by simp)
  | sockClose t code => simp only [step]; split <;> simp
  | reconnectFire t =>
    simp only [step]
    split
    · simp
    · rename_i hpos
      exfalso; omega
  | pollTick => simp only [step]; split <;> simp
  | _ => simp [step]

/-- A heartbeat tick never touches the caller-initiated flag, the
pending reconnect timeouts, or the reconnect budget, and only ever
outputs a termination or a ping. -/
theorem step_tick_frame (cfg : Config) (s : ClientState) (t : Nat) :
    (step cfg s (.heartbeatTick t)).1.systemClose = s.systemClose ∧
    (step cfg s (.heartbeatTick t)).1.pendingReconnects = s.pendingReconnects ∧
    (step cfg s (.heartbeatTick t)).1.reconnectAttempts = s.reconnectAttempts ∧
    ∀ o ∈ (step cfg s (.heartbeatTick t)).2,
      o = Output.terminate ∨ o = Output.ping := by
  have hf := evaluate_frame cfg { s with clock := t } t
  simp only [step]
  split
  · refine ⟨hf.2.1, hf.2.2.1, hf.1, ?_⟩
    intro o ho
    rcases List.mem_append.mp ho with ho | ho
    · exact Or.inl (hf.2.2.2.2.2.2.2 o ho)
    · right; simpa using ho
  · exact ⟨hf.2.1, hf.2.2.1, hf.1, fun o ho => Or.inl (hf.2.2.2.2.2.2.2 o ho)⟩

/-- C4: the remaining-reconnect-attempts counter is monotonically
decreasing over the supervisor's whole lifetime — no event, a
successful reconnect included, ever replenishes it — and from any state
where it has reached 0 (or below), no event sequence that avoids a
caller-initiated `connect()` ever produces another connect attempt,
unexpected closes included. -/
theorem reconnect_budget_monotone_and_never_replenished (cfg : Config) :
    (∀ (s : ClientState) (e : Event),
      (step cfg s e).1.reconnectAttempts ≤ s.reconnectAttempts) ∧
    (∀ (s : ClientState) (es : List Event), s.reconnectAttempts ≤ 0 →
      Event.callConnect ∉ es → Output.connectInvoked ∉ (run cfg s es).2) := by
  refine ⟨step_attempts_le cfg, ?_⟩
  intro s es
  induction es generalizing s with
  | nil => simp [run]
  | cons e es ih =>
    intro h0 hnc
    simp only [List.mem_cons, not_or] at hnc
    simp only [run, List.mem_append, not_or]
    refine ⟨step_no_connect_of_exhausted cfg s e h0 (Ne.symm hnc.1), ?_⟩
    exact ih (step cfg s e).1 (le_trans (step_attempts_le cfg s e) h0) hnc.2

/-- C4 witness: from an exhausted state, an unexpected close followed by
the scheduled timeout firing yields no connect attempt. -/
theorem reconnect_budget_monotone_and_never_replenished_witness :
    (step cfgA (stInit 0) .callClose).1.reconnectAttempts ≤
      (stInit 0).reconnectAttempts ∧
    Output.connectInvoked ∉
      (run cfgA { stOpenAt 50 0 with reconnectAttempts := 0 }
        [.sockClose 60 1006, .reconnectFire 1060]).2 :=
  ⟨(reconnect_budget_monotone_and_never_replenished cfgA).1 (stInit 0) .callClose,
   (reconnect_budget_monotone_and_never_replenished cfgA).2
     { stOpenAt 50 0 with reconnectAttempts := 0 }
     [.sockClose 60 1006, .reconnectFire 1060] (by decide) (by decide)⟩

/-- A state that is marked caller-closed and has no outstanding
reconnect timeouts stays that way (absent a caller `connect()`), and in
particular never produces a connect attempt: the close handler's
reconnect branch is disabled by the flag, and the reconnect timeout can
never validly fire. -/
theorem closed_state_invariant (cfg : Config) (es : List Event) :
    ∀ s : ClientState, s.systemClose = true → s.pendingReconnects = [] →
      Event.callConnect ∉ es → traceOK cfg s es = true →
      Output.connectInvoked ∉ (run cfg s es).2 ∧
      (run cfg s es).1.systemClose = true ∧
      (run cfg s es).1.pendingReconnects = [] := by
  induction es with
  | nil => intro s hsc hp _ _; exact ⟨by simp [run], hsc, hp⟩
  | cons e es ih =>
    intro s hsc hp hnc hok
    simp only [List.mem_cons, not_or] at hnc
    simp only [traceOK, Bool.and_eq_true] at hok
    have hstep : Output.connectInvoked ∉ (step cfg s e).2 ∧
        (step cfg s e).1.systemClose = true ∧
        (step cfg s e).1.pendingReconnects = [] := by
      cases e with
      | callConnect => exact absurd rfl hnc.1
      | sockOpen t => simp only [step]; split <;> simp [hsc, hp]
      | sockMessage d => simp [step, hsc, hp]
      | sockPong t => simp [step, hsc, hp]
      | sockClose t code => simp [step, hsc, hp]
      | heartbeatTick t =>
        have hf := step_tick_frame cfg s t
        refine ⟨?_, hf.1.trans hsc, hf.2.1.trans hp⟩
        intro hmem
        rcases hf.2.2.2 _ hmem with h | h <;> simp at h
      | pollTick => simp only [step]; split <;> simp [hsc, hp]
      | reconnectFire t =>
        exfalso
        have := hok.1
        simp [eventOK, hp] at this
      | callClose => simp [step, hsc, hp]
    have hrest := ih (step cfg s e).1 hstep.2.1 hstep.2.2 hnc.2 hok.2
    refine ⟨?_, hrest.2.1, hrest.2.2⟩
    simp only [run, List.mem_append, not_or]
    exact ⟨hstep.1, hrest.1⟩

/-- C5: `close()` sets the caller-initiated flag synchronously — it is
already set in the state `close()` returns, before any asynchronous
close event can be observed — so with no reconnect timeout already
outstanding, the closure and everything after it (absent a caller
`connect()`) produces zero reconnect attempts, whatever the
auto-reconnect setting. -/
theorem caller_close_prevents_reconnect (cfg : Config) (s : ClientState)
    (es : List Event)
    (hp : s.pendingReconnects = [])
    (hnc : Event.callConnect ∉ es)
    (hok : traceOK cfg (step cfg s .callClose).1 es = true) :
    (step cfg s .callClose).1.systemClose = true ∧
    Output.connectInvoked ∉ (run cfg (step cfg s .callClose).1 es).2 ∧
    (run cfg (step cfg s .callClose).1 es).1.pendingReconnects = [] := by
  have hsc : (step cfg s .callClose).1.systemClose = true := by simp [step]
  have hp1 : (step cfg s .callClose).1.pendingReconnects = [] := by
    simp [step, hp]
  have h := closed_state_invariant cfg es (step cfg s .callClose).1 hsc hp1 hnc hok
  exact ⟨hsc, h.1, h.2.2⟩

/-- The healthy-trace hypothesis restricts every prefix as well. -/
theorem ticksWithinTimeout_of_append (cfg : Config) (es1 : List Event) :
    ∀ (es2 : List Event) (L : Nat),
      ticksWithinTimeout cfg L (es1 ++ es2) = true →
      ticksWithinTimeout cfg L es1 = true := by
  induction es1 with
  | nil => intro es2 L _; rfl
  | cons e es ih =>
    intro es2 L h
    cases e
    case heartbeatTick t =>
      simp only [List.cons_append, ticksWithinTimeout, Bool.and_eq_true] at h ⊢
      exact ⟨h.1, ih es2 L h.2⟩
    case sockPong t =>
      simp only [List.cons_append, ticksWithinTimeout] at h ⊢
      exact ih es2 t h
    case sockOpen t =>
      simp only [List.cons_append, ticksWithinTimeout] at h ⊢
      exact ih es2 t h
    all_goals
      simp only [List.cons_append, ticksWithinTimeout] at h ⊢
      exact ih es2 L h

/-- Core invariant of healthy traces: as long as every heartbeat tick
runs within the liveness timeout of the last recorded acknowledgment,
the missed-acknowledgment counter stays 0, a pong timestamp stays
recorded, and no termination is ever emitted. -/
theorem healthy_run_invariant (cfg : Config) (es : List Event) :
    ∀ (s : ClientState) (L : Nat),
      s.missedPongs = 0 → s.lastPongAt = some L →
      ticksWithinTimeout cfg L es = true →
      (run cfg s es).1.missedPongs = 0 ∧
      (∃ L2, (run cfg s es).1.lastPongAt = some L2) ∧
      Output.terminate ∉ (run cfg s es).2 := by
  induction es with
  | nil => intro s L h0 hL _; exact ⟨h0, ⟨L, hL⟩, by simp [run]⟩
  | cons e es ih =>
    intro s L h0 hL hT
    have hstep : (step cfg s e).1.missedPongs = 0 ∧
        (∃ L1, (step cfg s e).1.lastPongAt = some L1 ∧
          ticksWithinTimeout cfg L1 es = true) ∧
        Output.terminate ∉ (step cfg s e).2 := by
      cases e with
      | callConnect =>
        exact ⟨h0, ⟨L, hL, by simpa [ticksWithinTimeout] using hT⟩,
          by simp [step, connectFn]⟩
      | sockOpen t =>
        simp only [ticksWithinTimeout] at hT
        simp only [step]
        split <;> exact ⟨rfl, ⟨t, rfl, hT⟩, by simp⟩
      | sockMessage d =>
        exact ⟨h0, ⟨L, hL, by simpa [ticksWithinTimeout] using hT⟩,
          by simp [step]⟩
      | sockPong t =>
        simp only [ticksWithinTimeout] at hT
        exact ⟨by simp [step], ⟨t, by simp [step], hT⟩, by simp [step]⟩
      | sockClose t code =>
        refine ⟨?_, ⟨L, ?_, by simpa [ticksWithinTimeout] using hT⟩, ?_⟩ <;>
          · simp only [step]
            split <;> simp [h0, hL]
      | heartbeatTick t =>
        simp only [ticksWithinTimeout, Bool.and_eq_true, decide_eq_true_eq] at hT
        have heval : evaluateConnectionHealth cfg { s with clock := t } t =
            ({ s with clock := t }, []) :=
          evaluate_recent cfg { s with clock := t } t L hL hT.1
        simp only [step, heval]
        split <;> exact ⟨h0, ⟨L, hL, hT.2⟩, by simp⟩
      | pollTick =>
        refine ⟨?_, ⟨L, ?_, by simpa [ticksWithinTimeout] using hT⟩, ?_⟩ <;>
          · simp only [step]
            split <;> simp [h0, hL]
      | reconnectFire t =>
        simp only [ticksWithinTimeout] at hT
        simp only [step]
        split
        · exact ⟨h0, ⟨L, hL, hT⟩, by simp⟩
        · exact ⟨h0, ⟨L, hL, hT⟩, by simp [connectFn]⟩
      | callClose =>
        exact ⟨h0, ⟨L, hL, by simpa [ticksWithinTimeout] using hT⟩,
          by simp [step]⟩
    obtain ⟨h0s, ⟨L1, hL1, hT1⟩, hout⟩ := hstep
    have hrest := ih (step cfg s e).1 L1 h0s hL1 hT1
    refine ⟨hrest.1, hrest.2.1, ?_⟩
    simp only [run, List.mem_append, not_or]
    exact ⟨hout, hrest.2.2⟩

/-- A state whose counter, pong timestamp are unchanged and whose clock
has not gone backwards inherits the staleness invariant. -/
theorem stale_of_fields (cfg : Config) (s s2 : ClientState)
    (hmp : s2.missedPongs = s.missedPongs)
    (hlp : s2.lastPongAt = s.lastPongAt) (hclk : s.clock ≤ s2.clock)
    (hInv : missedImpliesStale cfg s) : missedImpliesStale cfg s2 := by
  rcases hInv with h | ⟨lp, h1, h2⟩
  · exact Or.inl (hmp.trans h)
  · exact Or.inr ⟨lp, hlp.trans h1, by omega⟩

/-- The staleness invariant is preserved by every valid event. -/
theorem stale_invariant_step (cfg : Config) (s : ClientState) (e : Event)
    (hInv : missedImpliesStale cfg s) (hok : eventOK s e = true) :
    missedImpliesStale cfg (step cfg s e).1 := by
  cases e with
  | callConnect => exact hInv
  | sockOpen t =>
    refine Or.inl ?_
    simp only [step]
    split <;> rfl
  | sockMessage d => exact hInv
  | sockPong t => exact Or.inl rfl
  | sockClose t code =>
    simp only [eventOK, Bool.and_eq_true, decide_eq_true_eq] at hok
    refine stale_of_fields cfg s _ ?_ ?_ ?_ hInv
    · simp only [step]; split <;> rfl
    · simp only [step]; split <;> rfl
    · simp only [step]; split <;> exact hok.2
  | pollTick =>
    simp only [step]
    split <;> exact hInv
  | reconnectFire t =>
    simp only [eventOK, Bool.and_eq_true, decide_eq_true_eq] at hok
    refine stale_of_fields cfg s _ ?_ ?_ ?_ hInv
    · simp only [step]; split <;> rfl
    · simp only [step]; split <;> rfl
    · simp only [step]; split <;> exact hok.2
  | callClose => exact stale_of_fields cfg s _ rfl rfl le_rfl hInv
  | heartbeatTick t =>
    simp only [eventOK, Bool.and_eq_true, decide_eq_true_eq] at hok
    have hstep1 : (step cfg s (.heartbeatTick t)).1 =
        (evaluateConnectionHealth cfg { s with clock := t } t).1 := by
      simp only [step]
      split <;> rfl
    have hfr := evaluate_frame cfg { s with clock := t } t
    rw [hstep1]
    rcases evaluate_missedPongs cfg { s with clock := t } t with
      hmp | ⟨hmp, lp, hlp, hgt⟩
    · refine stale_of_fields cfg s _ hmp hfr.2.2.2.2.2.1 ?_ hInv
      rw [hfr.2.2.2.2.2.2.1]
      exact hok.2
    · refine Or.inr ⟨lp, ?_, ?_⟩
      · rw [hfr.2.2.2.2.2.1]
        exact hlp
      · rw [hfr.2.2.2.2.2.2.1]
        show cfg.pongTimeoutMs < t - lp
        exact hgt

/-- In any state satisfying the staleness invariant, a heartbeat tick
whose elapsed time since the last acknowledgment is within the timeout
leaves the counter at zero. -/
theorem stale_tick_keeps_zero (cfg : Config) (s : ClientState) (t lp : Nat)
    (hInv : missedImpliesStale cfg s) (hlp : s.lastPongAt = some lp)
    (hclk : s.clock ≤ t) (hel : t - lp ≤ cfg.pongTimeoutMs) :
    (step cfg s (.heartbeatTick t)).1.missedPongs = 0 := by
  have h0 : s.missedPongs = 0 := by
    rcases hInv with h | ⟨lp2, h1, h2⟩
    · exact h
    · rw [hlp] at h1
      injection h1 with h1
      omega
  have heval := evaluate_recent cfg { s with clock := t } t lp hlp hel
  simp only [step, heval]
  split <;> exact h0

/-- C2: along any event sequence in which every heartbeat tick runs
with elapsed time since the last acknowledgment at most
`pongTimeoutMs` — in particular when probe-acks land at most
`pongTimeoutMs` apart — the missed-acknowledgment counter never
exceeds 0 (it is 0 after every prefix) and the connection is never
force-terminated; equivalently, whenever the health evaluator runs in a
reachable state with elapsed ≤ `pongTimeoutMs`, the counter is zero
afterward (the staleness invariant is preserved by every valid event
and forces the counter to zero under such a tick). -/
theorem healthy_acks_never_terminate (cfg : Config) (s : ClientState)
    (L : Nat) (es : List Event)
    (h0 : s.missedPongs = 0) (hL : s.lastPongAt = some L)
    (hT : ticksWithinTimeout cfg L es = true) :
    ((∀ es1 es2, es = es1 ++ es2 → (run cfg s es1).1.missedPongs = 0) ∧
      Output.terminate ∉ (run cfg s es).2) ∧
    (∀ (s2 : ClientState) (e : Event), missedImpliesStale cfg s2 →
      eventOK s2 e = true → missedImpliesStale cfg (step cfg s2 e).1) ∧
    (∀ (s2 : ClientState) (t lp : Nat), missedImpliesStale cfg s2 →
      s2.lastPongAt = some lp → s2.clock ≤ t → t - lp ≤ cfg.pongTimeoutMs →
      (step cfg s2 (.heartbeatTick t)).1.missedPongs = 0) := by
  refine ⟨⟨?_, (healthy_run_invariant cfg es s L h0 hL hT).2.2⟩,
    fun s2 e hI hok => stale_invariant_step cfg s2 e hI hok,
    fun s2 t lp hI h1 h2 h3 => stale_tick_keeps_zero cfg s2 t lp hI h1 h2 h3⟩
  intro es1 es2 heq
  subst heq
  exact (healthy_run_invariant cfg es1 s L h0 hL
    (ticksWithinTimeout_of_append cfg es1 es2 L hT)).1

/-- C2 witness: an open attempt with pongs every 2500 ms (≤ the 3000 ms
timeout) and heartbeat ticks in between never increments the counter
and never terminates. -/
theorem healthy_acks_never_terminate_witness :
    Output.terminate ∉
      (run cfgA (stOpenAt 1000 3)
        [.heartbeatTick 2000, .heartbeatTick 3000, .sockPong 3500,
         .heartbeatTick 4000, .heartbeatTick 5000, .sockPong 6000,
         .heartbeatTick 7000]).2 :=
  ((healthy_acks_never_terminate cfgA (stOpenAt 1000 3) 1000
    [.heartbeatTick 2000, .heartbeatTick 3000, .sockPong 3500,
     .heartbeatTick 4000, .heartbeatTick 5000, .sockPong 6000,
     .heartbeatTick 7000] (by decide) (by decide) (by decide)).1).2

/-- C3 counterexample: with exactly 1 remaining attempt (> 0) at the
time of an unexpected close, the scheduled reconnect timeout fires
after the configured delay, decrements the counter to 0, and then stops
— no new connect attempt occurs: the full valid trace produces exactly
the one initial caller connect invocation. -/
theorem reconnect_with_one_attempt_counterexample :
    (stInit 1).reconnectAttempts = 1 ∧
    traceOK cfgA (stInit 1)
      [.callConnect, .sockOpen 1000, .sockClose 2000 1006,
       .reconnectFire 3000] = true ∧
    (run cfgA (stInit 1)
      [.callConnect, .sockOpen 1000, .sockClose 2000 1006,
       .reconnectFire 3000]).2 =
      [.connectInvoked, .openObs, .closeObs false 1006] ∧
    (run cfgA (stInit 1)
      [.callConnect, .sockOpen 1000, .sockClose 2000 1006,
       .reconnectFire 3000]).1.reconnectAttempts = 0 := by
  refine ⟨rfl, by decide, by decide, by decide⟩

/-- C3 (amended): after an unexpected close with auto-reconnect on, the
retry is scheduled at exactly close time + `reconnectDelayMs` (and the
timeout can fire only at a scheduled due time); when it fires, the
remaining-attempts counter decrements by exactly 1 regardless of
outcome, and a new connect attempt occurs precisely when the counter
was greater than 1 (that is, still positive after the decrement). -/
theorem reconnect_after_delay_amended (cfg : Config) (s : ClientState)
    (t code : Nat) (hS : s.systemClose = false) (hA : cfg.autoReconnect = true) :
    (step cfg s (.sockClose t code)).1.pendingReconnects =
      s.pendingReconnects ++ [t + cfg.reconnectDelayMs] ∧
    (∀ (s2 : ClientState) (t2 : Nat), eventOK s2 (.reconnectFire t2) = true →
      t2 ∈ s2.pendingReconnects) ∧
    (∀ (s2 : ClientState) (t2 : Nat),
      (step cfg s2 (.reconnectFire t2)).1.reconnectAttempts =
        s2.reconnectAttempts - 1) ∧
    (∀ (s2 : ClientState) (t2 : Nat), 1 < s2.reconnectAttempts →
      Output.connectInvoked ∈ (step cfg s2 (.reconnectFire t2)).2) := by
  refine ⟨by simp [step, hS, hA], ?_, ?_, ?_⟩
  · intro s2 t2 hok
    simp only [eventOK, Bool.and_eq_true] at hok
    exact List.mem_of_elem_eq_true hok.1
  · intro s2 t2
    simp only [step]
    split <;> simp [connectFn]
  · intro s2 t2 hgt
    simp only [step]
    rw [if_neg (by omega)]
    simp [connectFn]

/-- C3 amended witness: unexpected close at 2000 schedules the retry at
3000; firing with 2 attempts left decrements to 1 and re-invokes
connect. -/
theorem reconnect_after_delay_amended_witness :
    (step cfgA (stOpenAt 1000 2) (.sockClose 2000 1006)).1.pendingReconnects =
      [3000] ∧
    (step cfgA { stOpenAt 1000 2 with pendingReconnects := [3000] }
        (.reconnectFire 3000)).1.reconnectAttempts = 1 ∧
    Output.connectInvoked ∈
      (step cfgA { stOpenAt 1000 2 with pendingReconnects := [3000] }
        (.reconnectFire 3000)).2 := by
  have h := reconnect_after_delay_amended cfgA (stOpenAt 1000 2) 2000 1006
    (by decide) (by decide)
  refine ⟨by rw [h.1]; rfl, by rw [h.2.2.1]; rfl, ?_⟩
  exact h.2.2.2 { stOpenAt 1000 2 with pendingReconnects := [3000] } 3000
    (by decide)

/-- Running `connect()` followed by the open event at `t0` yields an
open, heartbeat-armed state with the pong timestamp primed to `t0`, the
counter 0 and the caller-initiated flag clear. -/
theorem connect_open_run (cfg : Config) (s : ClientState) (t0 : Nat)
    (hclk : s.clock ≤ t0) :
    (run cfg s [.callConnect, .sockOpen t0]).2 =
      [.connectInvoked, .openObs] ∧
    traceOK cfg s [.callConnect, .sockOpen t0] = true ∧
    (run cfg s [.callConnect, .sockOpen t0]).1.socket = some .open ∧
    (run cfg s [.callConnect, .sockOpen t0]).1.lastPongAt = some t0 ∧
    (run cfg s [.callConnect, .sockOpen t0]).1.missedPongs = 0 ∧
    (run cfg s [.callConnect, .sockOpen t0]).1.heartbeatTimer = true ∧
    (run cfg s [.callConnect, .sockOpen t0]).1.clock = t0 ∧
    (run cfg s [.callConnect, .sockOpen t0]).1.systemClose = false := by
  refine ⟨?_, ?_, ?_, ?_, ?_, ?_, ?_, ?_⟩ <;>
    · simp only [run, step, connectFn, traceOK, eventOK]
      first
        | (split <;> simp [hclk])
        | simp [hclk]

/-- The heartbeat tick on which the counter reaches the maximum:
increments the counter and abruptly terminates the transport, with no
ping afterwards. -/
theorem terminating_tick_step (cfg : Config) (sn : ClientState) (t0 t : Nat)
    (hsock : sn.socket = some .open) (hlp : sn.lastPongAt = some t0)
    (h0 : t0 ≠ 0) (hmp : sn.missedPongs + 1 ≥ cfg.maxMissedPongs)
    (ht : cfg.pongTimeoutMs < t - t0) :
    step cfg sn (.heartbeatTick t) =
      ({ sn with clock := t, missedPongs := sn.missedPongs + 1,
                 socket := some .closing }, [.terminate]) := by
  have heval := evaluate_missed cfg { sn with clock := t } t t0 hlp h0 ht
  rw [if_pos hmp] at heval
  simp only [hsock, terminateSocket] at heval
  simp only [step, hsock, heval]
  rw [if_neg (by simp)]

/-- Running `n` silent heartbeat ticks (no pong in between) from a
freshly-acknowledged open state, with `n` still below the count that
saturates the missed-pong maximum: every tick pings, the counter grows
only on the ticks past the timeout window, and nothing is
terminated. -/
theorem silent_ticks_run (cfg : Config) (s1 : ClientState) (t0 : Nat)
    (hsock : s1.socket = some .open) (hlp : s1.lastPongAt = some t0)
    (hmp : s1.missedPongs = 0) (hhb : s1.heartbeatTimer = true)
    (hclk : s1.clock = t0) (ht0 : 1 ≤ t0) (hh : 1 ≤ cfg.heartbeatIntervalMs) :
    ∀ n, n < cfg.pongTimeoutMs / cfg.heartbeatIntervalMs + cfg.maxMissedPongs →
      run cfg s1 (silentTicks t0 cfg.heartbeatIntervalMs n) =
        ({ s1 with clock := t0 + n * cfg.heartbeatIntervalMs,
                   missedPongs :=
                     n - cfg.pongTimeoutMs / cfg.heartbeatIntervalMs },
          List.replicate n Output.ping) ∧
      traceOK cfg s1 (silentTicks t0 cfg.heartbeatIntervalMs n) = true := by
  intro n
  induction n with
  | zero =>
    intro _
    constructor
    · cases s1
      simp_all [silentTicks, run]
    · simp [silentTicks, traceOK]
  | succ n ih =>
    intro hlt
    obtain ⟨hrun, hok⟩ := ih (Nat.lt_of_succ_lt hlt)
    have hsplit : silentTicks t0 cfg.heartbeatIntervalMs (n + 1) =
        silentTicks t0 cfg.heartbeatIntervalMs n ++
          [.heartbeatTick (t0 + (n + 1) * cfg.heartbeatIntervalMs)] := by
      simp [silentTicks, List.range_succ]
    have hstep : step cfg
        ({ s1 with clock := t0 + n * cfg.heartbeatIntervalMs,
                   missedPongs :=
                     n - cfg.pongTimeoutMs / cfg.heartbeatIntervalMs })
        (.heartbeatTick (t0 + (n + 1) * cfg.heartbeatIntervalMs)) =
        ({ s1 with clock := t0 + (n + 1) * cfg.heartbeatIntervalMs,
                   missedPongs :=
                     (n + 1) - cfg.pongTimeoutMs / cfg.heartbeatIntervalMs },
          [Output.ping]) := by
      by_cases hcase : n + 1 ≤ cfg.pongTimeoutMs / cfg.heartbeatIntervalMs
      · -- within the timeout window: the evaluator is a no-op
        have hel : (t0 + (n + 1) * cfg.heartbeatIntervalMs) - t0 ≤
            cfg.pongTimeoutMs := by
          have h1 : (n + 1) * cfg.heartbeatIntervalMs ≤ cfg.pongTimeoutMs :=
            (Nat.le_div_iff_mul_le hh).mp hcase
          omega
        have heval := evaluate_recent cfg
          ({ s1 with clock := t0 + (n + 1) * cfg.heartbeatIntervalMs,
                     missedPongs :=
                       n - cfg.pongTimeoutMs / cfg.heartbeatIntervalMs })
          (t0 + (n + 1) * cfg.heartbeatIntervalMs) t0 hlp hel
        simp only [hsock] at heval
        simp only [step, hsock, heval]
        have e1 : n - cfg.pongTimeoutMs / cfg.heartbeatIntervalMs =
            (n + 1) - cfg.pongTimeoutMs / cfg.heartbeatIntervalMs := by omega
        simp [e1]
      · -- past the timeout window: increment, but below the maximum
        have hq : cfg.pongTimeoutMs / cfg.heartbeatIntervalMs < n + 1 := by
          omega
        have hel : cfg.pongTimeoutMs <
            (t0 + (n + 1) * cfg.heartbeatIntervalMs) - t0 := by
          have h1 : cfg.pongTimeoutMs < (n + 1) * cfg.heartbeatIntervalMs :=
            (Nat.div_lt_iff_lt_mul hh).mp hq
          omega
        have heval := evaluate_missed cfg
          ({ s1 with clock := t0 + (n + 1) * cfg.heartbeatIntervalMs,
                     missedPongs :=
                       n - cfg.pongTimeoutMs / cfg.heartbeatIntervalMs })
          (t0 + (n + 1) * cfg.heartbeatIntervalMs) t0 hlp (by omega) hel
        have hnotmax : ¬(n - cfg.pongTimeoutMs / cfg.heartbeatIntervalMs + 1 ≥
            cfg.maxMissedPongs) := by omega
        rw [if_neg hnotmax] at heval
        simp only [hsock] at heval
        simp only [step, hsock, heval]
        have e1 : n - cfg.pongTimeoutMs / cfg.heartbeatIntervalMs + 1 =
            (n + 1) - cfg.pongTimeoutMs / cfg.heartbeatIntervalMs := by omega
        simp [e1]
    constructor
    · rw [hsplit, run_append, hrun]
      simp [run, hstep, List.replicate_succ']
    · rw [hsplit, traceOK_append, hok, hrun]
      simp [traceOK, eventOK, hhb]
      exact Nat.mul_le_mul_right _ (Nat.le_succ n)

/-- The end of the silent scenario: the saturating heartbeat tick
terminates the transport (once), and the close event it drives is
observed with the caller-initiated flag false. -/
theorem term_close_run (cfg : Config) (sn : ClientState) (t0 t code : Nat)
    (hsock : sn.socket = some .open) (hlp : sn.lastPongAt = some t0)
    (h0 : t0 ≠ 0) (hmp : sn.missedPongs + 1 ≥ cfg.maxMissedPongs)
    (ht : cfg.pongTimeoutMs < t - t0) (hhb : sn.heartbeatTimer = true)
    (hclk : sn.clock ≤ t) (hsc : sn.systemClose = false) :
    (run cfg sn [.heartbeatTick t, .sockClose t code]).2 =
      [Output.terminate, Output.closeObs false code] ∧
    traceOK cfg sn [.heartbeatTick t, .sockClose t code] = true := by
  have hstep := terminating_tick_step cfg sn t0 t hsock hlp h0 hmp ht
  constructor
  · simp only [run]
    rw [hstep]
    simp only [step]
    split <;> simp [hsc]
  · simp only [traceOK]
    rw [hstep]
    simp [eventOK, hhb, hclk]

/-- C1: in the silent scenario — connect, open at `t0`, then no probe
acknowledgment while heartbeat ticks fire every interval until
`maxMissedPongs` consecutive evaluations past the timeout window have
missed, then the close event the terminated socket delivers — the
trace is valid, the transport is force-terminated (abrupt terminate)
exactly once, and the resulting close event is observed with the
caller-initiated flag false. -/
theorem unresponsive_terminated_exactly_once (cfg : Config) (s : ClientState)
    (t0 code : Nat) (hh : 1 ≤ cfg.heartbeatIntervalMs)
    (hm : 1 ≤ cfg.maxMissedPongs) (ht0 : 1 ≤ t0) (hclk : s.clock ≤ t0) :
    traceOK cfg s (silentTrace t0 cfg.heartbeatIntervalMs
      (cfg.pongTimeoutMs / cfg.heartbeatIntervalMs + cfg.maxMissedPongs)
      code) = true ∧
    (run cfg s (silentTrace t0 cfg.heartbeatIntervalMs
      (cfg.pongTimeoutMs / cfg.heartbeatIntervalMs + cfg.maxMissedPongs)
      code)).2.count Output.terminate = 1 ∧
    Output.closeObs false code ∈ (run cfg s (silentTrace t0
      cfg.heartbeatIntervalMs
      (cfg.pongTimeoutMs / cfg.heartbeatIntervalMs + cfg.maxMissedPongs)
      code)).2 ∧
    ∀ b c, Output.closeObs b c ∈ (run cfg s (silentTrace t0
      cfg.heartbeatIntervalMs
      (cfg.pongTimeoutMs / cfg.heartbeatIntervalMs + cfg.maxMissedPongs)
      code)).2 → b = false := by
  obtain ⟨m', hm'⟩ : ∃ m', cfg.maxMissedPongs = m' + 1 :=
    ⟨cfg.maxMissedPongs - 1, by omega⟩
  have hK : cfg.pongTimeoutMs / cfg.heartbeatIntervalMs + cfg.maxMissedPongs =
      cfg.pongTimeoutMs / cfg.heartbeatIntervalMs + m' + 1 := by omega
  rw [hK]
  have hco := connect_open_run cfg s t0 hclk
  have hticks := silent_ticks_run cfg
    (run cfg s [.callConnect, .sockOpen t0]).1 t0
    hco.2.2.1 hco.2.2.2.1 hco.2.2.2.2.1 hco.2.2.2.2.2.1 hco.2.2.2.2.2.2.1
    ht0 hh (cfg.pongTimeoutMs / cfg.heartbeatIntervalMs + m') (by omega)
  have hmul : cfg.pongTimeoutMs <
      (cfg.pongTimeoutMs / cfg.heartbeatIntervalMs + m' + 1) *
        cfg.heartbeatIntervalMs :=
    (Nat.div_lt_iff_lt_mul hh).mp (by omega)
  have hmono : (cfg.pongTimeoutMs / cfg.heartbeatIntervalMs + m') *
      cfg.heartbeatIntervalMs ≤
      (cfg.pongTimeoutMs / cfg.heartbeatIntervalMs + m' + 1) *
        cfg.heartbeatIntervalMs :=
    Nat.mul_le_mul_right _ (by omega)
  have htc := term_close_run cfg
    { (run cfg s [.callConnect, .sockOpen t0]).1 with
        clock := t0 + (cfg.pongTimeoutMs / cfg.heartbeatIntervalMs + m') *
          cfg.heartbeatIntervalMs,
        missedPongs := (cfg.pongTimeoutMs / cfg.heartbeatIntervalMs + m') -
          cfg.pongTimeoutMs / cfg.heartbeatIntervalMs }
    t0
    (t0 + (cfg.pongTimeoutMs / cfg.heartbeatIntervalMs + m' + 1) *
      cfg.heartbeatIntervalMs)
    code hco.2.2.1 hco.2.2.2.1 (by omega)
    (by show cfg.pongTimeoutMs / cfg.heartbeatIntervalMs + m' -
          cfg.pongTimeoutMs / cfg.heartbeatIntervalMs + 1 ≥ cfg.maxMissedPongs
        omega)
    (by omega) hco.2.2.2.2.2.1
    (by show t0 + (cfg.pongTimeoutMs / cfg.heartbeatIntervalMs + m') *
          cfg.heartbeatIntervalMs ≤ t0 +
            (cfg.pongTimeoutMs / cfg.heartbeatIntervalMs + m' + 1) *
              cfg.heartbeatIntervalMs
        omega)
    hco.2.2.2.2.2.2.2
  have hsplit : silentTrace t0 cfg.heartbeatIntervalMs
      (cfg.pongTimeoutMs / cfg.heartbeatIntervalMs + m' + 1) code =
      [.callConnect, .sockOpen t0] ++
        (silentTicks t0 cfg.heartbeatIntervalMs
          (cfg.pongTimeoutMs / cfg.heartbeatIntervalMs + m') ++
          [.heartbeatTick (t0 +
            (cfg.pongTimeoutMs / cfg.heartbeatIntervalMs + m' + 1) *
              cfg.heartbeatIntervalMs),
           .sockClose (t0 +
            (cfg.pongTimeoutMs / cfg.heartbeatIntervalMs + m' + 1) *
              cfg.heartbeatIntervalMs) code]) := by
    simp [silentTrace, silentTicks, List.range_succ]
  rw [hsplit]
  have houts : (run cfg s
      ([.callConnect, .sockOpen t0] ++
        (silentTicks t0 cfg.heartbeatIntervalMs
          (cfg.pongTimeoutMs / cfg.heartbeatIntervalMs + m') ++
          [.heartbeatTick (t0 +
            (cfg.pongTimeoutMs / cfg.heartbeatIntervalMs + m' + 1) *
              cfg.heartbeatIntervalMs),
           .sockClose (t0 +
            (cfg.pongTimeoutMs / cfg.heartbeatIntervalMs + m' + 1) *
              cfg.heartbeatIntervalMs) code]))).2 =
      [Output.connectInvoked, Output.openObs] ++
        (List.replicate (cfg.pongTimeoutMs / cfg.heartbeatIntervalMs + m')
          Output.ping ++
          [Output.terminate, Output.closeObs false code]) := by
    rw [run_append, run_append, hco.1, hticks.1, htc.1]
  refine ⟨?_, ?_, ?_, ?_⟩
  · rw [traceOK_append, traceOK_append, hco.2.1, hticks.2, hticks.1, htc.2]
    rfl
  · rw [houts]
    simp [List.count_append, List.count_replicate]
  · rw [houts]
    simp
  · intro b c hmem
    rw [houts] at hmem
    simp [List.mem_append, List.mem_replicate] at hmem
    exact hmem.1

/-- C1 witness: the defaults configuration, opening at time 1000 — the
silent stretch is 5 ticks (3 within the 3000 ms window, then 2 missed),
one terminate, close observed with flag false. -/
theorem unresponsive_terminated_exactly_once_witness :
    traceOK cfgA (stInit 3) (silentTrace 1000 cfgA.heartbeatIntervalMs
      (cfgA.pongTimeoutMs / cfgA.heartbeatIntervalMs + cfgA.maxMissedPongs)
      1006) = true ∧
    (run cfgA (stInit 3) (silentTrace 1000 cfgA.heartbeatIntervalMs
      (cfgA.pongTimeoutMs / cfgA.heartbeatIntervalMs + cfgA.maxMissedPongs)
      1006)).2.count Output.terminate = 1 ∧
    Output.closeObs false 1006 ∈ (run cfgA (stInit 3) (silentTrace 1000
      cfgA.heartbeatIntervalMs
      (cfgA.pongTimeoutMs / cfgA.heartbeatIntervalMs + cfgA.maxMissedPongs)
      1006)).2 ∧
    ∀ b c, Output.closeObs b c ∈ (run cfgA (stInit 3) (silentTrace 1000
      cfgA.heartbeatIntervalMs
      (cfgA.pongTimeoutMs / cfgA.heartbeatIntervalMs + cfgA.maxMissedPongs)
      1006)).2 → b = false :=
  unresponsive_terminated_exactly_once cfgA (stInit 3) 1000 1006
    (by decide) (by decide) (by decide) (by decide)

/-- C5 witness: caller close of an open connection, then the close
event arrives — no reconnect is scheduled and none fires, with
auto-reconnect on. -/
theorem caller_close_prevents_reconnect_witness :
    (step cfgA (stOpenAt 10 3) .callClose).1.systemClose = true ∧
    Output.connectInvoked ∉
      (run cfgA (step cfgA (stOpenAt 10 3) .callClose).1 [.sockClose 20 1000]).2 ∧
    (run cfgA (step cfgA (stOpenAt 10 3) .callClose).1
        [.sockClose 20 1000]).1.pendingReconnects = [] :=
  caller_close_prevents_reconnect cfgA (stOpenAt 10 3) [.sockClose 20 1000]
    (by decide) (by decide) (by decide)

end DexWs
